import Mathlib

/-!
Verification development for the UBI Eraseblock Association (EBA) core of
drivers/mtd/ubi/eba.c.  The C code is shallowly embedded: machine integers
become Nat/Int (with explicit reduction modulo 2^64 where 64-bit overflow
matters), intrusive lists become Lean lists of LEB numbers, the shared
ConsolidatedPeb objects live in an explicit arena (a list of options), and
external collaborators (WL allocator, MTD I/O) are oracles carried in the
state.  Sequential embedding: mutexes and semaphores guard nothing in a
single-threaded run and are not modelled; lock-tree operations are recorded
in an event trace so that claims about which locks an operation takes can be
stated.
-/

namespace UbiEba

/-- 2^64, the modulus of the 64-bit sequence counter. -/
def U64 : Nat := 2 ^ 64

/-- UBI_LEB_UNMAPPED (ubi.h): the pnum / lnum value marking an unmapped LEB. -/
def UBI_LEB_UNMAPPED : Int := -1

def EIOERR : Int := 5
def EAGAIN : Int := 11
def ENOMEM : Int := 12
def EBUSY : Int := 16
def ENOENT : Int := 2
def EINVAL : Int := 22
def ENOSPC : Int := 28
def EROFS : Int := 30
def EBADMSG : Int := 74
def EUCLEAN : Int := 117

/-- UBI_IO_RETRIES (ubi.h): bound on write-failure retries. -/
def UBI_IO_RETRIES : Nat := 3

/- Positive status codes returned by the ubi_io layer (ubi.h).  Their exact
numeric values are immaterial to every claim; only distinctness is used. -/
def UBI_IO_FF : Int := 1
def UBI_IO_FF_BITFLIPS : Int := 2
def UBI_IO_BAD_HDR : Int := 3
def UBI_IO_BAD_HDR_EBADMSG : Int := 4
def UBI_IO_BITFLIPS : Int := 5

/- Soft result codes of the WL move path (MOVE_* enum in ubi.h).  Again only
distinctness matters. -/
def MOVE_CANCEL_RACE : Int := 1
def MOVE_SOURCE_RD_ERR : Int := 2
def MOVE_TARGET_RD_ERR : Int := 3
def MOVE_TARGET_WR_ERR : Int := 4
def MOVE_TARGET_BITFLIPS : Int := 5
def MOVE_RETRY : Int := 6

def mtd_is_eccerr (e : Int) : Bool := e = -EBADMSG

def mtd_is_bitflip (e : Int) : Bool := e = -EUCLEAN

/-! ## SequenceCounter (eba.c, ubi_next_sqnum / ubi_eba_init) -/

/-- `ubi_next_sqnum` (eba.c:126-135): return the current 64-bit global
sequence counter and post-increment it. -/
def ubi_next_sqnum (global_sqnum : Nat) : Nat × Nat :=
  (global_sqnum, (global_sqnum + 1) % U64)

/-- Counter state after `k` calls of `ubi_next_sqnum` starting from `g0`. -/
def sqnumState (g0 : Nat) : Nat → Nat
  | 0 => g0
  | k + 1 => (ubi_next_sqnum (sqnumState g0 k)).2

/-- Value returned by the `k`-th call (0-based) of `ubi_next_sqnum` in a run
starting from counter value `g0`. -/
def sqnumRet (g0 k : Nat) : Nat := (ubi_next_sqnum (sqnumState g0 k)).1

/-- `ubi_eba_init` (eba.c:2513): the counter starts at `ai->max_sqnum + 1`
(64-bit arithmetic). -/
def initGlobalSqnum (max_sqnum : Nat) : Nat := (max_sqnum + 1) % U64

theorem sqnumState_closed (g0 : Nat) (hg : g0 < U64) (k : Nat) :
    sqnumState g0 k = (g0 + k) % U64 := by
  induction k with
  | zero => simp [sqnumState, Nat.mod_eq_of_lt hg]
  | succ k ih =>
      simp only [sqnumState, ubi_next_sqnum, ih, U64]
      omega

/-- C1: every call of `ubi_next_sqnum` in a run started by `ubi_eba_init`
(counter initialized to `max_sqnum + 1`) returns a value strictly greater
than every earlier call's value, and every returned value is strictly
greater than `max_sqnum`, the largest sequence number in the attach info.
The hypothesis excludes 64-bit wraparound, matching the source comment that
64 bits never overflow (eba.c:40-41). -/
theorem ubi_next_sqnum_strictly_increasing (max_sqnum n : Nat)
    (hov : max_sqnum + 1 + n ≤ U64) :
    (∀ i j, i < j → j < n →
        sqnumRet (initGlobalSqnum max_sqnum) i <
          sqnumRet (initGlobalSqnum max_sqnum) j) ∧
    (∀ i, i < n → max_sqnum < sqnumRet (initGlobalSqnum max_sqnum) i) := by
  have hval : ∀ i, i < n →
      sqnumRet (initGlobalSqnum max_sqnum) i = max_sqnum + 1 + i := by
    intro i hi
    have h1 : max_sqnum + 1 < U64 := by omega
    have h2 : max_sqnum + 1 + i < U64 := by omega
    have hg : initGlobalSqnum max_sqnum = max_sqnum + 1 := Nat.mod_eq_of_lt h1
    simp only [sqnumRet, ubi_next_sqnum, hg]
    rw [sqnumState_closed (max_sqnum + 1) h1 i, Nat.mod_eq_of_lt h2]
  constructor
  · intro i j hij hj
    rw [hval i (lt_trans hij hj), hval j hj]
    omega
  · intro i hi
    rw [hval i hi]
    omega

/-- Witness for C1 at max_sqnum = 5 in a run of three calls: the value of
call 0 is below the value of call 2, and call 0 already exceeds 5. -/
theorem ubi_next_sqnum_strictly_increasing_witness :
    sqnumRet (initGlobalSqnum 5) 0 < sqnumRet (initGlobalSqnum 5) 2 ∧
      5 < sqnumRet (initGlobalSqnum 5) 0 :=
  ⟨(ubi_next_sqnum_strictly_increasing 5 3 (by norm_num [U64])).1 0 2
      (by norm_num) (by norm_num),
   (ubi_next_sqnum_strictly_increasing 5 3 (by norm_num [U64])).2 0
      (by norm_num)⟩

/-! ## ubi_eba_get_peb accounting (eba.c:585-602) -/

/-- Core of `ubi_eba_get_peb`: wait until `free_pebs >= 1` (the wait loop
never exits in a sequential run when `free_pebs < 1`, modelled by `none`),
decrement the counter, then execute `ubi_assert(free_pebs > 0)` on the
decremented value.  Returns the new counter and the value of the asserted
condition. -/
def ubi_eba_get_peb_core (free_pebs : Int) : Option (Int × Bool) :=
  if free_pebs < 1 then none
  else some (free_pebs - 1, decide (0 < free_pebs - 1))

/-- C10: the PEB-acquisition helper's post-decrement assertion
`ubi_assert(free_pebs > 0)` evaluates to false on a call that observes
`free_pebs = 1` (the decrement leaves 0, and 0 > 0 fails), although the
documented invariant `free_pebs >= 0` permits that call.  This refutes the
claim that the assertion holds there: the code trips its own assertion. -/
theorem ubi_eba_get_peb_assert_fails_at_one :
    ubi_eba_get_peb_core 1 = some (0, false) := by decide

/-! ## ubi_eba_create_table (eba.c:2329-2382) -/

/-- Success/failure of each allocation performed by `ubi_eba_create_table`,
in the order the source makes them. -/
structure AllocPlan where
  tblOk : Bool
  descsOk : Bool
  bitmapOk : Bool
  dirtyOk : Bool
deriving Repr, DecidableEq

/-- The table `ubi_eba_create_table` hands back on its success exits. -/
structure CreatedTable where
  /-- `cdescs[i].pnum` for each of the `nlebs` entries (MLC), or the
  uninitialized `descs` garbage (SLC: `kmalloc` without initialization). -/
  pnums : List Int
  /-- consolidated bitmap contents (note: the source under-allocates it,
  `DIV_ROUND_UP(nlebs, BITS_PER_LONG)` bytes instead of longs; the byte
  layout is not modelled). -/
  bits : List Bool
  openL : List Int
  clean : List Int
  dirty : List (List Int)
  /-- true when `closed.dirty` is the NULL pointer (the source returns such
  a table when the dirty-array allocation fails and `lebs_per_cpeb = 1`). -/
  dirtyIsNull : Bool
deriving Repr, DecidableEq

/-- Possible outcomes of `ubi_eba_create_table`. -/
inductive CreateTableResult where
  /-- returned a table -/
  | ok (tbl : CreatedTable)
  /-- `ERR_PTR(code)` -/
  | err (code : Int)
  /-- dereferenced the NULL `closed.dirty` pointer in the
  `INIT_LIST_HEAD(&tbl->closed.dirty[i])` loop -/
  | nullDeref
deriving Repr, DecidableEq

/-- `ubi_eba_create_table` (eba.c:2329-2382), transcribed branch by branch.
`garbage` stands for the uninitialized contents of the SLC `descs` array.
For an MLC-safe volume the source checks the dirty-array allocation with
`if (tbl->closed.dirty) goto err;` (eba.c:2361-2362), i.e. it jumps to the
error exit exactly when the allocation succeeded, and falls through to the
initialization loops with a NULL `closed.dirty` when it failed. -/
def ubi_eba_create_table (mlc_safe : Bool) (lebs_per_cpeb nlebs : Nat)
    (a : AllocPlan) (garbage : List Int) : CreateTableResult :=
  if !a.tblOk then .err (-ENOMEM)
  else if !mlc_safe then
    if !a.descsOk then .err (-ENOMEM)
    else .ok { pnums := garbage, bits := [], openL := [], clean := [],
               dirty := [], dirtyIsNull := true }
  else if !a.descsOk then .err (-ENOMEM)
  else if !a.bitmapOk then .err (-ENOMEM)
  else if a.dirtyOk then .err (-ENOMEM)
  else if 2 ≤ lebs_per_cpeb then .nullDeref
  else .ok { pnums := List.replicate nlebs UBI_LEB_UNMAPPED,
             bits := List.replicate nlebs false,
             openL := [], clean := [], dirty := [], dirtyIsNull := true }

/-- C9: on an MLC-safe volume with every allocation succeeding,
`ubi_eba_create_table` does not return the initialized table the claim
describes: the inverted NULL check on `closed.dirty` sends it to the error
exit and it returns `ERR_PTR(-ENOMEM)` (shown here at lebs_per_cpeb = 4,
nlebs = 8). -/
theorem ubi_eba_create_table_all_allocs_ok_errors :
    ubi_eba_create_table true 4 8
        { tblOk := true, descsOk := true, bitmapOk := true, dirtyOk := true }
        [] = .err (-ENOMEM) := by decide

/-! ## The EBA table (MLC variant) and the consolidation context

`struct ubi_eba_cdesc` holds a union of an `int pnum` and a
`struct ubi_consolidated_peb *cpeb`; the shared `ubi_consolidated_peb`
objects live in an explicit arena (`cpebArena`), a freed object becomes
`none`.  The intrusive classification lists store the LEB numbers of the
linked entries; `list_del` removes an entry from whichever list holds it,
modelled by filtering the number out of every list (each entry is linked
into at most one list). -/

structure UbiConsolidatedPeb where
  pnum : Int
  lnums : List Int
deriving Repr, DecidableEq

/-- The active member of the `ubi_eba_cdesc` union. -/
inductive CdescVal where
  | p (pnum : Int)
  | c (ref : Nat)
deriving Repr, DecidableEq

/-- Reading the union as `pnum`.  When the stored member is the pointer,
C would reinterpret the pointer bits; the code only does this read when the
consolidated bit is clear, so the `.c` case is never exercised by the
discipline the code maintains. -/
def unionPnum : CdescVal → Int
  | .p x => x
  | .c r => Int.ofNat r

/-- Reading the union as the `cpeb` pointer (arena reference); the `.p` case
mirrors reinterpreting an int as a pointer and is never exercised under the
consolidated-bit discipline. -/
def unionCref : CdescVal → Nat
  | .p _ => 0
  | .c r => r

structure UbiEbaTable where
  cdescs : List CdescVal
  consolidatedBits : List Bool
  openL : List Int
  clean : List Int
  dirty : List (List Int)
  free_pebs : Int
  cpebArena : List (Option UbiConsolidatedPeb)
deriving Repr, DecidableEq

/-- `list_del` / `list_del_init` on the classification lists. -/
def listDelAll (lnum : Int) (t : UbiEbaTable) : UbiEbaTable :=
  { t with openL := t.openL.filter (fun x => x ≠ lnum),
           clean := t.clean.filter (fun x => x ≠ lnum),
           dirty := t.dirty.map (fun l => l.filter (fun x => x ≠ lnum)) }

/-- `struct ubi_consolidation_ctx` fields used by the EBA core (`cpeb`,
`ldesc`, `loffset`, `cancel`; the `buf` contents live in the world state). -/
structure ConsoCtx where
  cancel : Bool
  lnum : Int
  pnum : Int
  lpos : Int
  loffset : Nat
  cpebRef : Option Nat
deriving Repr, DecidableEq

/-- Per-volume state seen by the table operations. -/
structure VolState where
  mlc_safe : Bool
  /-- `mtd_pairing_groups_per_eb(ubi->mtd)` -/
  K : Nat
  tbl : UbiEbaTable
  conso : ConsoCtx
deriving Repr, DecidableEq

structure UbiLebDesc where
  lnum : Int
  pnum : Int
  lpos : Int
deriving Repr, DecidableEq

/-- Scan of `stop_leb_consolidation`'s loop over `cpeb->lnums` (eba.c
429-438): stop at the first `UBI_LEB_UNMAPPED` slot; cancel if a slot holds
the target LEB. -/
def scanHitsLnum (target : Int) : List Int → Bool
  | [] => false
  | x :: xs =>
      if x = UBI_LEB_UNMAPPED then false
      else if x ≠ target then scanHitsLnum target xs
      else true

/-- `stop_leb_consolidation` (eba.c:415-439): when a consolidation is
running and the LEB being invalidated is one of its sources, set the
`cancel` flag. -/
def stop_leb_consolidation (K : Nat) (arena : List (Option UbiConsolidatedPeb))
    (ctx : ConsoCtx) (ldescLnum : Int) : ConsoCtx :=
  if ctx.lpos < 0 then ctx
  else
    let lnums :=
      match ctx.cpebRef.bind (fun r => arena.getD r none) with
      | some cp => cp.lnums.take K
      | none => []
    if scanHitsLnum ldescLnum lnums then { ctx with cancel := true } else ctx

/-- `ubi_eba_get_ldesc` (eba.c:2277-2303). -/
def ubi_eba_get_ldesc (v : VolState) (lnum : Nat) : UbiLebDesc :=
  if !v.mlc_safe then
    { lnum := lnum,
      pnum := unionPnum (v.tbl.cdescs.getD lnum (.p UBI_LEB_UNMAPPED)),
      lpos := -1 }
  else if v.tbl.consolidatedBits.getD lnum false then
    let r := unionCref (v.tbl.cdescs.getD lnum (.p UBI_LEB_UNMAPPED))
    match v.tbl.cpebArena.getD r none with
    | some cp =>
        { lnum := lnum, pnum := cp.pnum,
          lpos := Int.ofNat
            ((cp.lnums.take v.K).findIdx (fun x => decide (x = (lnum : Int)))) }
    | none => { lnum := lnum, pnum := UBI_LEB_UNMAPPED, lpos := -1 }
  else
    { lnum := lnum,
      pnum := unionPnum (v.tbl.cdescs.getD lnum (.p UBI_LEB_UNMAPPED)),
      lpos := -1 }

/-- The first loop body over `cpeb->lnums` (eba.c:471-479 and 506-514):
the first slot holding a valid LEB number. -/
def firstValid (K : Nat) (l : List Int) : Option Int :=
  (l.take K).find? (fun x => decide (0 ≤ x))

/-- The invalidation loop (eba.c:482-487): clear every slot equal to `lnum`. -/
def clearSlots (lnum : Int) (l : List Int) : List Int :=
  l.map (fun x => if x = lnum then UBI_LEB_UNMAPPED else x)

/-- The `valid` counter of the invalidation loop (eba.c:482-487): slots that
hold a valid LEB other than `lnum`. -/
def validCount (lnum : Int) (l : List Int) : Nat :=
  (l.filter (fun x => decide (x ≠ lnum ∧ 0 ≤ x))).length

/-- `ubi_eba_invalidate_leb_locked` (eba.c:442-532).  Returns the updated
volume state and the `release_peb` flag. -/
def ubi_eba_invalidate_leb_locked (v : VolState) (ldesc : UbiLebDesc)
    (consolidating : Bool) : VolState × Bool :=
  let lnum := ldesc.lnum.toNat
  if !v.mlc_safe then
    ({ v with tbl := { v.tbl with
          cdescs := v.tbl.cdescs.set lnum (.p UBI_LEB_UNMAPPED),
          free_pebs := v.tbl.free_pebs + 1 } }, true)
  else if ldesc.lpos < 0 then
    if ldesc.pnum ≠ UBI_LEB_UNMAPPED then
      let t1 := listDelAll ldesc.lnum v.tbl
      let ctx1 := if !consolidating then
          stop_leb_consolidation v.K t1.cpebArena v.conso ldesc.lnum
        else v.conso
      ({ v with
          tbl := { t1 with
            cdescs := t1.cdescs.set lnum (.p UBI_LEB_UNMAPPED),
            free_pebs := t1.free_pebs + 1 },
          conso := ctx1 }, true)
    else
      ({ v with tbl := { v.tbl with free_pebs := v.tbl.free_pebs + 1 } }, true)
  else
    let r := unionCref (v.tbl.cdescs.getD lnum (.p UBI_LEB_UNMAPPED))
    let cp := (v.tbl.cpebArena.getD r none).getD
        { pnum := UBI_LEB_UNMAPPED, lnums := [] }
    -- remove the first valid LEB of the consolidated PEB from its list
    let t1 :=
      match firstValid v.K cp.lnums with
      | some rep => listDelAll rep v.tbl
      | none => v.tbl
    -- clear the slot(s) holding this LEB and count the remaining valid ones
    let newLnums := clearSlots ldesc.lnum cp.lnums
    let valid := validCount ldesc.lnum cp.lnums
    let t2 := { t1 with
        cpebArena := t1.cpebArena.set r (some { cp with lnums := newLnums }) }
    -- re-insert the first valid LEB into closed.dirty[valid - 1]
    let t3 :=
      if valid ≠ 0 then
        match firstValid v.K newLnums with
        | some rep =>
            { t2 with dirty :=
                t2.dirty.set (valid - 1) (rep :: t2.dirty.getD (valid - 1) []) }
        | none => t2
      else t2
    let ctx1 := if !consolidating then
        stop_leb_consolidation v.K t3.cpebArena v.conso ldesc.lnum
      else v.conso
    let t4 := { t3 with
        consolidatedBits := t3.consolidatedBits.set lnum false,
        cdescs := t3.cdescs.set lnum (.p UBI_LEB_UNMAPPED) }
    if valid = 0 then
      ({ v with
          tbl := { t4 with
            cpebArena := t4.cpebArena.set r none,
            free_pebs := t4.free_pebs + 1 },
          conso := ctx1 }, true)
    else
      ({ v with tbl := t4, conso := ctx1 }, false)

/-! ### List helper lemmas -/

theorem getD_set_ite {α : Type _} (l : List α) (i : Nat) (x d : α) :
    (l.set i x).getD i d = if i < l.length then x else d := by
  induction l generalizing i with
  | nil => simp
  | cons a t ih =>
      cases i with
      | zero => simp
      | succ n =>
          simp only [List.set_cons_succ, List.getD_cons_succ, ih,
            List.length_cons, Nat.add_lt_add_iff_right]

theorem length_filter_lt_of_exists_not {α : Type _} (p : α → Bool)
    (l : List α) (hx : ∃ x ∈ l, p x = false) :
    (l.filter p).length < l.length := by
  induction l with
  | nil => rcases hx with ⟨x, hx, _⟩; simp at hx
  | cons a t ih =>
      rcases hx with ⟨x, hx, hpx⟩
      rcases List.mem_cons.mp hx with rfl | hxt
      · have := List.length_filter_le p t
        simp [List.filter_cons, hpx]
        omega
      · have := ih ⟨x, hxt, hpx⟩
        by_cases hpa : p a
        · simp [List.filter_cons, hpa]
          omega
        · simp only [Bool.not_eq_true] at hpa
          simp [List.filter_cons, hpa]
          omega

/-- C2: invalidating, on an MLC-safe volume, a LEB `l` residing at slot
`lpos >= 0` of a consolidated PEB (entry `r` of the arena holding `cp`):
writing `valid` for the number of slots that remain valid after clearing the
slots holding `l`, if `valid = 0` the `ConsolidatedPeb` is freed and the
function reports that its PEB must be released to WL; if `valid > 0` the
function reports that the PEB must not be released, the consolidated bit of
`l` is cleared, the `ConsolidatedPeb` survives with the slots of `l`
cleared, a new representative (the first remaining valid slot) exists, and
its entry is linked at the head of `closed.dirty[valid - 1]`. -/
theorem ubi_eba_invalidate_consolidated_slot
    (v : VolState) (ldesc : UbiLebDesc) (consolidating : Bool)
    (r : Nat) (cp : UbiConsolidatedPeb)
    (hmlc : v.mlc_safe = true)
    (hlpos : 0 ≤ ldesc.lpos)
    (hdesc : v.tbl.cdescs.getD ldesc.lnum.toNat (.p UBI_LEB_UNMAPPED) = .c r)
    (harena : v.tbl.cpebArena.getD r none = some cp)
    (hr : r < v.tbl.cpebArena.length)
    (hlen : cp.lnums.length = v.K)
    (hlp : ldesc.lpos.toNat < cp.lnums.length)
    (hin : cp.lnums.getD ldesc.lpos.toNat 0 = ldesc.lnum)
    (hdl : v.tbl.dirty.length + 1 = v.K) :
    (validCount ldesc.lnum cp.lnums = 0 →
      (ubi_eba_invalidate_leb_locked v ldesc consolidating).2 = true ∧
      (ubi_eba_invalidate_leb_locked v ldesc
          consolidating).1.tbl.cpebArena.getD r none = none) ∧
    (validCount ldesc.lnum cp.lnums ≠ 0 →
      (ubi_eba_invalidate_leb_locked v ldesc consolidating).2 = false ∧
      (ubi_eba_invalidate_leb_locked v ldesc
          consolidating).1.tbl.consolidatedBits.getD ldesc.lnum.toNat false
        = false ∧
      (ubi_eba_invalidate_leb_locked v ldesc
          consolidating).1.tbl.cpebArena.getD r none =
        some { cp with lnums := clearSlots ldesc.lnum cp.lnums } ∧
      (firstValid v.K (clearSlots ldesc.lnum cp.lnums)).isSome = true ∧
      ((ubi_eba_invalidate_leb_locked v ldesc
            consolidating).1.tbl.dirty.getD
          (validCount ldesc.lnum cp.lnums - 1) []).head?
        = firstValid v.K (clearSlots ldesc.lnum cp.lnums)) := by
  have hnl : ¬ ldesc.lpos < 0 := not_lt.mpr hlpos
  have hmem : ldesc.lnum ∈ cp.lnums := by
    have := List.getD_eq_getElem cp.lnums 0 hlp
    rw [hin] at this
    exact this ▸ List.getElem_mem hlp
  have hvlt : validCount ldesc.lnum cp.lnums < v.K := by
    rw [← hlen]
    exact length_filter_lt_of_exists_not _ _ ⟨ldesc.lnum, hmem, by simp⟩
  simp only [ubi_eba_invalidate_leb_locked, hmlc, Bool.not_true,
    Bool.false_eq_true, if_false, hnl, hdesc, unionCref, harena,
    Option.getD_some, ite_false]
  constructor
  · intro hv0
    simp only [hv0, ne_eq, not_true_eq_false, if_false, ite_true]
    cases hf : firstValid v.K cp.lnums with
    | none =>
        simp only [hf]
        refine ⟨trivial, ?_⟩
        rw [getD_set_ite]
        split <;> rfl
    | some rep =>
        simp only [hf]
        refine ⟨trivial, ?_⟩
        rw [getD_set_ite]
        split <;> rfl
  · intro hvne
    have hvpos : 0 < validCount ldesc.lnum cp.lnums :=
      Nat.pos_of_ne_zero hvne
    -- a remaining valid slot exists in the cleared lnums array
    have hex : firstValid v.K (clearSlots ldesc.lnum cp.lnums) ≠ none := by
      have hlen' : (clearSlots ldesc.lnum cp.lnums).length = v.K := by
        rw [clearSlots, List.length_map, hlen]
      rw [firstValid, ← hlen', List.take_length]
      rcases List.exists_mem_of_length_pos hvpos with ⟨y, hy⟩
      rcases List.mem_filter.mp hy with ⟨hyl, hyp⟩
      have hy2 : (y ≠ ldesc.lnum ∧ 0 ≤ y) := by simpa using hyp
      intro hnone
      have hmm := List.mem_map_of_mem
        (fun x => if x = ldesc.lnum then UBI_LEB_UNMAPPED else x) hyl
      have := List.find?_eq_none.mp hnone _ hmm
      simp [hy2.1, hy2.2] at this
    rcases Option.ne_none_iff_exists.mp hex with ⟨rep2, hf2⟩
    have hbound : validCount ldesc.lnum cp.lnums - 1 < v.tbl.dirty.length := by
      omega
    cases hf1 : firstValid v.K cp.lnums with
    | none =>
        simp only [hf1, ← hf2, hvne, ne_eq, not_false_eq_true, ite_true,
          ite_false, not_true_eq_false, if_true, if_false, Option.isSome_some]
        refine ⟨trivial, ?_, ?_, trivial, ?_⟩
        · rw [getD_set_ite]
          split <;> rfl
        · rw [getD_set_ite, if_pos hr]
        · rw [getD_set_ite, if_pos hbound]
          rfl
    | some rep =>
        simp only [hf1, ← hf2, hvne, ne_eq, not_false_eq_true, ite_true,
          ite_false, not_true_eq_false, if_true, if_false, Option.isSome_some,
          listDelAll]
        refine ⟨trivial, ?_, ?_, trivial, ?_⟩
        · rw [getD_set_ite]
          split <;> rfl
        · rw [getD_set_ite, if_pos hr]
        · rw [getD_set_ite]
          simp only [List.length_map]
          rw [if_pos hbound]
          rfl

/-- Concrete MLC volume state for the C2 witness: two LEBs 0 and 1 packed in
one consolidated PEB (arena entry 0, destination PEB 9). -/
def vC2 : VolState :=
  { mlc_safe := true, K := 2,
    tbl := { cdescs := [.c 0, .c 0], consolidatedBits := [true, true],
             openL := [], clean := [0], dirty := [[]], free_pebs := 3,
             cpebArena := [some { pnum := 9, lnums := [0, 1] }] },
    conso := { cancel := false, lnum := -1, pnum := -1, lpos := -1,
               loffset := 0, cpebRef := none } }

/-- Witness for C2: invalidating LEB 0 (slot 0) of the consolidated PEB of
`vC2` leaves LEB 1 valid, so the PEB is not released, the consolidated bit
of LEB 0 is cleared, the `ConsolidatedPeb` survives with slot 0 cleared, and
the new representative (LEB 1) heads `closed.dirty[0]`. -/
theorem ubi_eba_invalidate_consolidated_slot_witness :
    (ubi_eba_invalidate_leb_locked vC2
        { lnum := 0, pnum := 9, lpos := 0 } false).2 = false ∧
    (ubi_eba_invalidate_leb_locked vC2
        { lnum := 0, pnum := 9, lpos := 0 }
        false).1.tbl.consolidatedBits.getD 0 false = false ∧
    (ubi_eba_invalidate_leb_locked vC2
        { lnum := 0, pnum := 9, lpos := 0 }
        false).1.tbl.cpebArena.getD 0 none =
      some { pnum := 9, lnums := clearSlots 0 [0, 1] } ∧
    (firstValid 2 (clearSlots 0 [0, 1])).isSome = true ∧
    ((ubi_eba_invalidate_leb_locked vC2
        { lnum := 0, pnum := 9, lpos := 0 }
        false).1.tbl.dirty.getD (validCount 0 [0, 1] - 1) []).head?
      = firstValid 2 (clearSlots 0 [0, 1]) :=
  (ubi_eba_invalidate_consolidated_slot vC2
      { lnum := 0, pnum := 9, lpos := 0 } false 0 { pnum := 9, lnums := [0, 1] }
      (by decide) (by decide) (by decide) (by decide) (by decide) (by decide)
      (by decide) (by decide) (by decide)).2 (by decide)

/-- `reset_consolidation` (eba.c:1559-1567). -/
def reset_consolidation : ConsoCtx :=
  { cancel := false, lnum := UBI_LEB_UNMAPPED, pnum := -1, lpos := -1,
    loffset := 0, cpebRef := none }

/-- One iteration of the `eba_lock` loop of `finish_consolidation`
(eba.c:1785-1812), for slot `i` of the new `ConsolidatedPeb` at arena entry
`newRef`: look up the source LEB's old mapping, invalidate it (with
`consolidating = true`), increment `free_pebs` once more when the
invalidation reported a release (the source's explicit
`vol->eba_tbl->free_pebs++`, eba.c:1796) and record the old pnum, then
install the new cpeb reference, unlink the entry, link slot 0 into
`closed.clean`, and set the consolidated bit.  Returns `opnums[i]`. -/
def finish_consolidation_step (newRef : Nat) (i : Nat) (v : VolState) :
    VolState × Int :=
  let cp := (v.tbl.cpebArena.getD newRef none).getD
      { pnum := UBI_LEB_UNMAPPED, lnums := [] }
  let lnum := cp.lnums.getD i UBI_LEB_UNMAPPED
  let ldesc := ubi_eba_get_ldesc v lnum.toNat
  let res := ubi_eba_invalidate_leb_locked v ldesc true
  let v1 := res.1
  let withCount :=
    if res.2 then
      ({ v1 with tbl :=
          { v1.tbl with free_pebs := v1.tbl.free_pebs + 1 } }, ldesc.pnum)
    else (v1, (-1 : Int))
  let v2 := withCount.1
  let t0 := { v2.tbl with cdescs := v2.tbl.cdescs.set lnum.toNat (.c newRef) }
  let t1 := listDelAll lnum t0
  let t2 := if i = 0 then { t1 with clean := t1.clean ++ [lnum] } else t1
  let t3 := { t2 with
      consolidatedBits := t2.consolidatedBits.set lnum.toNat true }
  ({ v2 with tbl := t3 }, withCount.2)

/-- The whole `eba_lock` critical section of `finish_consolidation`
(eba.c:1783-1818): run the per-slot loop for `i = 0 .. K-1`, reset the
consolidation context, and decrement `free_pebs` by one for the consumed
destination PEB.  Returns the final state, `opnums` and `olnums`. -/
def finish_consolidation_locked (v : VolState) (newRef : Nat) :
    VolState × List Int × List Int :=
  let out := (List.range v.K).foldl
    (fun acc i =>
      let lnum := (((acc.1.tbl.cpebArena.getD newRef none).getD
          { pnum := UBI_LEB_UNMAPPED, lnums := [] }).lnums.getD i
            UBI_LEB_UNMAPPED)
      let r := finish_consolidation_step newRef i acc.1
      (r.1, acc.2.1 ++ [r.2], acc.2.2 ++ [lnum]))
    (v, ([] : List Int), ([] : List Int))
  let v1 := out.1
  let v2 := { v1 with conso := reset_consolidation }
  ({ v2 with tbl := { v2.tbl with free_pebs := v2.tbl.free_pebs - 1 } },
   out.2.1, out.2.2)

/-- Concrete MLC volume for C3: K = 2, source LEBs 0 and 1 mapped to
whole PEBs 10 and 11, destination `ConsolidatedPeb` (PEB 20) at arena
entry 0, `free_pebs = 5` before finalization. -/
def vC3 : VolState :=
  { mlc_safe := true, K := 2,
    tbl := { cdescs := [.p 10, .p 11], consolidatedBits := [false, false],
             openL := [0, 1], clean := [], dirty := [[]], free_pebs := 5,
             cpebArena := [some { pnum := 20, lnums := [0, 1] }] },
    conso := { cancel := false, lnum := 1, pnum := 20, lpos := 1,
               loffset := 0, cpebRef := some 0 } }

/-- C3 is violated by the code: finalizing the consolidation of `vC3`
releases both source PEBs (opnums = [10, 11]), so by the claim `free_pebs`
should change by 2 - 1 = +1, from 5 to 6; the code counts every released
source PEB twice — once inside `ubi_eba_invalidate_leb_locked`
(eba.c:528-529) and once in `finish_consolidation` itself (eba.c:1796) —
and ends at 8 = 5 + 2*2 - 1. -/
theorem finish_consolidation_free_pebs_double_count :
    (finish_consolidation_locked vC3 0).1.tbl.free_pebs = 8 ∧
    (finish_consolidation_locked vC3 0).2.1 = [10, 11] := by decide

/-! ## World state for the VolumeOps protocols

External collaborators (WL allocator, MTD I/O, crc32) are oracles carried in
the state; lock-tree operations, payload writes, VID-header writes, WL puts
and scrub requests are recorded in traces.  Mutexes/semaphores guard nothing
in this sequential embedding (the source's back-to-back `mutex_lock` slips
in `ubi_eba_invalidate_leb` and `select_leb_for_consolidation` are
concurrency artifacts with no sequential content). -/

/-- UBI_VID_DYNAMIC / UBI_VID_STATIC (ubi-media.h). -/
def UBI_VID_DYNAMIC : Nat := 1
def UBI_VID_STATIC : Nat := 2

/-- VIDH_FLAG_CONSOLIDATED: flag bit of the consolidation marker header. -/
def VIDH_FLAG_CONSOLIDATED : Nat := 1

/-- The VID header fields (ubi-media.h); stored big-endian on media, held
here as plain numbers. -/
structure UbiVidHdr where
  magic : Nat
  version : Nat
  vol_type : Nat
  copy_flag : Nat
  compat : Int
  vol_id : Int
  lnum : Int
  data_size : Nat
  used_ebs : Nat
  data_pad : Nat
  data_crc : Nat
  sqnum : Nat
  hdr_crc : Nat
  flags : Nat
deriving Repr, DecidableEq

def defaultVidHdr : UbiVidHdr :=
  { magic := 0, version := 0, vol_type := 0, copy_flag := 0, compat := 0,
    vol_id := 0, lnum := 0, data_size := 0, used_ebs := 0, data_pad := 0,
    data_crc := 0, sqnum := 0, hdr_crc := 0, flags := 0 }

/-- Lock-tree events (vol_id, lnum). -/
inductive LockEv where
  | rdLock (vol_id lnum : Int)
  | rdTry (vol_id lnum : Int)
  | rdUnlock (vol_id lnum : Int)
  | wrLock (vol_id lnum : Int)
  | wrTry (vol_id lnum : Int)
  | wrUnlock (vol_id lnum : Int)
deriving Repr, DecidableEq

structure World where
  vol : VolState
  vol_id : Int
  /-- `vol->vol_type == UBI_STATIC_VOLUME` -/
  vol_type_static : Bool
  ro_mode : Bool
  bad_allowed : Bool
  fast_attach : Bool
  leb_start : Nat
  leb_size : Nat
  min_io_size : Nat
  peb_size : Nat
  data_pad : Nat
  global_sqnum : Nat
  /-- `ubi->peb_buf`, the shared scratch buffer -/
  peb_buf : List Nat
  /-- oracle: `ubi_io_read` / `ubi_io_slc_read` / `ubi_io_read_data`:
  (pnum, offset, len) to (err, bytes) -/
  ioRead : Int → Nat → Nat → Int × List Nat
  /-- oracle: result of `ubi_io_write` / `ubi_io_slc_write` /
  `ubi_io_write_data` at (pnum, offset) -/
  ioWrite : Int → Nat → Int
  /-- oracle: result of `ubi_io_write_vid_hdr` at pnum -/
  vidWr : Int → Int
  /-- oracle: `ubi_io_read_vid_hdr` at pnum -/
  vidRd : Int → Int × UbiVidHdr
  /-- oracle: `ubi_io_read_vid_hdrs` at pnum -/
  vidsRd : Int → Int × List UbiVidHdr
  /-- oracle stream: successive `ubi_wl_get_peb` results -/
  wlGet : List Int
  /-- oracle: `ubi_wl_put_peb` result by pnum -/
  wlPut : Int → Int
  /-- oracle: `ubi_wl_scrub_peb` result by pnum -/
  scrubRes : Int → Int
  /-- oracle: crc32(UBI_CRC32_INIT, bytes) -/
  crcFn : List Nat → Nat
  /-- oracle stream: results of memory allocations (VID header buffers) -/
  allocOk : List Bool
  /-- oracle stream: outcomes of `leb_read_trylock` / `leb_write_trylock`
  (0 acquired, 1 contention, negative error) -/
  trylockRes : List Int
  /-- `ubi->volumes[idx]` lookup result in `ubi_eba_copy_peb` -/
  volPresent : Bool
  events : List LockEv
  /-- attempted payload writes (pnum, absolute offset, bytes) -/
  dataWrites : List (Int × Nat × List Nat)
  /-- attempted VID-header writes (pnum, header) -/
  vidWrites : List (Int × UbiVidHdr)
  /-- WL put requests (pnum, torture) -/
  puts : List (Int × Int)
  /-- WL scrub requests -/
  scrubs : List Int
  /-- outcomes of the recorded `ubi_assert(free_pebs > 0)` of
  `ubi_eba_get_peb` -/
  asserts : List Bool

/-- `ubi_next_sqnum` acting on the world (eba.c:126-135). -/
def next_sqnum (w : World) : World × Nat :=
  ({ w with global_sqnum := (w.global_sqnum + 1) % U64 }, w.global_sqnum)

/-- UBI_LAYOUT_VOLUME_ID / UBI_LAYOUT_VOLUME_COMPAT (ubi.h / ubi-media.h). -/
def UBI_LAYOUT_VOLUME_ID : Int := 2147479551
def UBI_LAYOUT_VOLUME_COMPAT : Int := 5

/-- `ubi_get_compat` (eba.c:145-150). -/
def ubi_get_compat (vol_id : Int) : Int :=
  if vol_id = UBI_LAYOUT_VOLUME_ID then UBI_LAYOUT_VOLUME_COMPAT else 0

def leb_read_lock (w : World) (vol_id lnum : Int) : World :=
  { w with events := .rdLock vol_id lnum :: w.events }

def leb_read_unlock (w : World) (vol_id lnum : Int) : World :=
  { w with events := .rdUnlock vol_id lnum :: w.events }

def leb_write_lock (w : World) (vol_id lnum : Int) : World :=
  { w with events := .wrLock vol_id lnum :: w.events }

def leb_write_unlock (w : World) (vol_id lnum : Int) : World :=
  { w with events := .wrUnlock vol_id lnum :: w.events }

/-- `leb_read_trylock` (eba.c:293-314): 0 acquired, 1 contention, negative
error; the outcome comes from the contention oracle stream. -/
def leb_read_trylock (w : World) (vol_id lnum : Int) : World × Int :=
  ({ w with trylockRes := w.trylockRes.tail,
            events := .rdTry vol_id lnum :: w.events },
   w.trylockRes.headD 0)

/-- `leb_write_trylock` (eba.c:369-390). -/
def leb_write_trylock (w : World) (vol_id lnum : Int) : World × Int :=
  ({ w with trylockRes := w.trylockRes.tail,
            events := .wrTry vol_id lnum :: w.events },
   w.trylockRes.headD 0)

/-- `ubi_wl_get_peb` collaborator. -/
def ubi_wl_get_peb (w : World) : World × Int :=
  ({ w with wlGet := w.wlGet.tail }, w.wlGet.headD (-ENOSPC))

/-- `ubi_wl_put_peb` collaborator; the request is recorded. -/
def ubi_wl_put_peb (w : World) (pnum torture : Int) : World × Int :=
  ({ w with puts := (pnum, torture) :: w.puts }, w.wlPut pnum)

/-- `ubi_wl_scrub_peb` collaborator; the request is recorded. -/
def ubi_wl_scrub_peb (w : World) (pnum : Int) : World × Int :=
  ({ w with scrubs := pnum :: w.scrubs }, w.scrubRes pnum)

/-- `ubi_eba_set_pnum` (eba.c:561-567): both branches store the int member
of the union. -/
def ubi_eba_set_pnum (v : VolState) (lnum : Nat) (pnum : Int) : VolState :=
  { v with tbl := { v.tbl with cdescs := v.tbl.cdescs.set lnum (.p pnum) } }

/-- `ubi_eba_put_peb` (eba.c:569-583): WL put, then (on success) another
`free_pebs++`. -/
def ubi_eba_put_peb (w : World) (pnum torture : Int) : World × Int :=
  let r := ubi_wl_put_peb w pnum torture
  if r.2 ≠ 0 then r
  else
    ({ r.1 with vol := { r.1.vol with tbl :=
        { r.1.vol.tbl with free_pebs := r.1.vol.tbl.free_pebs + 1 } } }, 0)

/-- No C counterpart: stands for the wait loop of `ubi_eba_get_peb`, which
never exits in a sequential run when `free_pebs < 1`.  Theorems never
exercise it. -/
def EBA_MODEL_WOULD_SPIN : Int := -997

/-- `ubi_eba_get_peb` (eba.c:585-602) acting on the world; the outcome of
the post-decrement assertion is recorded. -/
def ubi_eba_get_peb_w (w : World) : World × Int :=
  match ubi_eba_get_peb_core w.vol.tbl.free_pebs with
  | none => (w, EBA_MODEL_WOULD_SPIN)
  | some fa =>
      let w := { w with
        vol := { w.vol with tbl := { w.vol.tbl with free_pebs := fa.1 } },
        asserts := fa.2 :: w.asserts }
      ubi_wl_get_peb w

/-- `read_leb` (eba.c:650-663): translate the LEB-relative offset; the
consolidated case adds `lpos * leb_size` (`ubi_io_read`), the
non-consolidated case uses the SLC-safe primitive at the plain offset. -/
def read_leb (w : World) (ldesc : UbiLebDesc) (loffset len : Nat) :
    Int × List Nat :=
  let offset := loffset + w.leb_start
  let lpos : Int := if w.vol.mlc_safe then ldesc.lpos else 0
  if lpos < 0 then w.ioRead ldesc.pnum offset len
  else w.ioRead ldesc.pnum (offset + lpos.toNat * w.leb_size) len

/-- `write_leb` (eba.c:665-678); records the attempted write with the
`len` bytes of payload. -/
def write_leb (w : World) (buf : List Nat) (ldesc : UbiLebDesc)
    (loffset len : Nat) : World × Int :=
  let offset := loffset + w.leb_start
  let lpos : Int := if w.vol.mlc_safe then ldesc.lpos else 0
  let off := if lpos < 0 then offset else offset + lpos.toNat * w.leb_size
  ({ w with dataWrites := (ldesc.pnum, off, buf.take len) :: w.dataWrites },
   w.ioWrite ldesc.pnum off)

/-- `ubi_io_write_vid_hdr` collaborator; records the header written. -/
def ubi_io_write_vid_hdr (w : World) (pnum : Int) (hdr : UbiVidHdr) :
    World × Int :=
  ({ w with vidWrites := (pnum, hdr) :: w.vidWrites }, w.vidWr pnum)

/-! ## ubi_eba_read_leb (eba.c:721-858) and ubi_eba_unmap_leb (eba.c:614-648) -/

/-- The `if (check)` block of `ubi_eba_read_leb` (eba.c:756-818): allocate a
header buffer, read the VID headers, map the error cases, select the header
of slot `lpos` (or slot 0) and extract the expected data CRC.  `.error` is a
jump to `out_free`/`out_unlock`; `.ok` carries the updated scrub flag and
the expected CRC. -/
def read_check_hdrs (w : World) (ldesc : UbiLebDesc) (scrub0 : Bool) :
    Except (World × Int) (World × Bool × Nat) :=
  let aOk := w.allocOk.headD true
  let w := { w with allocOk := w.allocOk.tail }
  if !aOk then .error (w, -ENOMEM)
  else
    let res := w.vidsRd ldesc.pnum
    let e := res.1
    if e ≠ 0 ∧ e ≠ UBI_IO_BITFLIPS then
      if 0 < e then
        if e = UBI_IO_BAD_HDR_EBADMSG ∨ e = UBI_IO_BAD_HDR then
          .error (w, -EBADMSG)
        else if w.fast_attach then .error (w, -EBADMSG)
        else .error ({ w with ro_mode := true }, -EINVAL)
      else .error (w, e)
    else
      let scrub := scrub0 || decide (e = UBI_IO_BITFLIPS)
      let hdr := if ldesc.lpos < 0 then res.2.headD defaultVidHdr
        else res.2.getD ldesc.lpos.toNat defaultVidHdr
      .ok (w, scrub, hdr.data_crc)

/-- `ubi_eba_read_leb` from the `retry:` label on (eba.c:755-858).  `fuel`
bounds the single forced re-entry (`check = 1; goto retry`, eba.c:828-831,
taken at most once because it sets `check`).  The in-function asserts on
`used_ebs`/`data_size` are not modelled. -/
def read_leb_retry (ldesc : UbiLebDesc) (vol_id lnum : Int)
    (offset len : Nat) :
    Nat → World → Bool → Bool → World × Int × List Nat
  | 0, w, _, _ => (w, -EBADMSG, [])
  | fuel + 1, w, check, scrub0 =>
    let afterCheck : Except (World × Int) (World × Bool × Nat) :=
      if check then read_check_hdrs w ldesc scrub0
      else .ok (w, scrub0, 0)
    match afterCheck with
    | .error we => (leb_read_unlock we.1 vol_id lnum, we.2, [])
    | .ok wsc =>
        let w := wsc.1
        let scrub := wsc.2.1
        let crc := wsc.2.2
        let rr := read_leb w ldesc offset len
        let e := rr.1
        let buf := rr.2
        if e ≠ 0 ∧ e ≠ UBI_IO_BITFLIPS ∧ ¬ mtd_is_eccerr e then
          (leb_read_unlock w vol_id lnum, e, buf)
        else if mtd_is_eccerr e ∧ ¬ w.vol_type_static then
          (leb_read_unlock w vol_id lnum, e, buf)
        else if mtd_is_eccerr e ∧ !check then
          read_leb_retry ldesc vol_id lnum offset len fuel w true true
        else
          let scrub2 := scrub || decide (e = UBI_IO_BITFLIPS)
            || mtd_is_eccerr e
          if check ∧ w.crcFn buf ≠ crc then
            (leb_read_unlock w vol_id lnum, -EBADMSG, buf)
          else
            let we :=
              if scrub2 then ubi_wl_scrub_peb w ldesc.pnum else (w, e)
            (leb_read_unlock we.1 vol_id lnum, we.2, buf)

/-- `ubi_eba_read_leb` (eba.c:721-858).  Returns the world, the result code
and the bytes delivered in `buf`.  On an unmapped LEB the buffer is filled
with 0xFF and the call succeeds (the static-volume caller-contract assert is
not modelled); for dynamic volumes `check` is forced to 0 (eba.c:752-753). -/
def ubi_eba_read_leb (w : World) (lnum : Nat) (offset len : Nat)
    (check0 : Bool) : World × Int × List Nat :=
  let w := leb_read_lock w w.vol_id lnum
  let ldesc := ubi_eba_get_ldesc w.vol lnum
  if ldesc.pnum < 0 then
    (leb_read_unlock w w.vol_id lnum, 0, List.replicate len 255)
  else
    let check := if !w.vol_type_static then false else check0
    read_leb_retry ldesc w.vol_id lnum offset len 2 w check false

/-- `ubi_eba_unmap_leb` (eba.c:614-648): write-lock, invalidate when mapped
(the double-`mutex_lock` slip of the `ubi_eba_invalidate_leb` wrapper,
eba.c:539-541, has no sequential content), and hand the PEB back to WL when
the invalidation reported a release. -/
def ubi_eba_unmap_leb (w : World) (lnum : Nat) : World × Int :=
  if w.ro_mode then (w, -EROFS)
  else
    let w := leb_write_lock w w.vol_id lnum
    let ldesc := ubi_eba_get_ldesc w.vol lnum
    if ldesc.pnum < 0 then (leb_write_unlock w w.vol_id lnum, 0)
    else
      let res := ubi_eba_invalidate_leb_locked w.vol ldesc false
      let w := { w with vol := res.1 }
      if res.2 then
        let pr := ubi_eba_put_peb w ldesc.pnum 0
        (leb_write_unlock pr.1 w.vol_id lnum, pr.2)
      else (leb_write_unlock w w.vol_id lnum, 0)

/-- Invalidating the mapping delivered by `ubi_eba_get_ldesc` leaves the
LEB reading back as unmapped. -/
theorem get_ldesc_pnum_after_invalidate (v : VolState) (lnum : Nat)
    (c : Bool) (hp : 0 ≤ (ubi_eba_get_ldesc v lnum).pnum) :
    (ubi_eba_get_ldesc
        (ubi_eba_invalidate_leb_locked v (ubi_eba_get_ldesc v lnum) c).1
        lnum).pnum = UBI_LEB_UNMAPPED := by
  by_cases hm : v.mlc_safe
  · by_cases hb : v.tbl.consolidatedBits.getD lnum false
    · rcases harena : v.tbl.cpebArena.getD
          (unionCref (v.tbl.cdescs.getD lnum (.p UBI_LEB_UNMAPPED))) none with
        _ | cp
      · exfalso
        have hld : (ubi_eba_get_ldesc v lnum).pnum = UBI_LEB_UNMAPPED := by
          simp only [ubi_eba_get_ldesc, hm, hb, harena]
          rfl
        rw [hld] at hp
        exact absurd hp (by decide)
      · have hld : ubi_eba_get_ldesc v lnum =
            { lnum := lnum, pnum := cp.pnum,
              lpos := Int.ofNat ((cp.lnums.take v.K).findIdx
                (fun x => decide (x = (lnum : Int)))) } := by
          simp only [ubi_eba_get_ldesc, hm, hb, harena]
          rfl
        rw [hld]
        have hnl : ¬ (Int.ofNat ((cp.lnums.take v.K).findIdx
            (fun x => decide (x = (lnum : Int))))) < 0 := by
          simp
        simp only [ubi_eba_invalidate_leb_locked, hm, Bool.not_true,
          Bool.false_eq_true, if_false, hnl, ite_false, Int.toNat_natCast]
        repeat' split
        all_goals
          simp only [ubi_eba_get_ldesc, hm, Bool.not_true, Bool.false_eq_true,
            if_false, listDelAll, getD_set_ite, ite_self, unionPnum,
            List.length_map]
    · have hld : ubi_eba_get_ldesc v lnum =
          { lnum := lnum,
            pnum := unionPnum (v.tbl.cdescs.getD lnum (.p UBI_LEB_UNMAPPED)),
            lpos := -1 } := by
        simp only [ubi_eba_get_ldesc, hm, hb, Bool.false_eq_true, if_false]
        rfl
      rw [hld] at hp
      have hp' : 0 ≤ unionPnum (v.tbl.cdescs.getD lnum (.p UBI_LEB_UNMAPPED)) :=
        hp
      have hne : unionPnum (v.tbl.cdescs.getD lnum (.p UBI_LEB_UNMAPPED))
          ≠ UBI_LEB_UNMAPPED := by
        intro hEq
        rw [hEq] at hp'
        exact absurd hp' (by decide)
      rw [hld]
      simp only [ubi_eba_invalidate_leb_locked, hm, Bool.not_true,
        Bool.false_eq_true, if_false, hne, ne_eq, not_false_eq_true, if_true,
        Int.toNat_natCast]
      have hlt : ((-1 : Int) < 0) := by decide
      rw [if_pos hlt]
      simp only [ubi_eba_get_ldesc, hm, listDelAll, getD_set_ite, ite_self,
        unionPnum, hb, Bool.false_eq_true, if_false]
  · simp only [ubi_eba_invalidate_leb_locked, hm, Bool.not_false, if_true,
      ubi_eba_get_ldesc, Int.toNat_natCast]
    rw [getD_set_ite]
    split <;> simp [unionPnum]

/-- Reading an unmapped LEB delivers an all-0xFF buffer and succeeds. -/
theorem ubi_eba_read_leb_unmapped (w : World) (lnum offset len : Nat)
    (check0 : Bool) (hpn : (ubi_eba_get_ldesc w.vol lnum).pnum < 0) :
    (ubi_eba_read_leb w lnum offset len check0).2
      = (0, List.replicate len 255) := by
  simp only [ubi_eba_read_leb, leb_read_lock]
  rw [if_pos hpn]

/-- `ubi_eba_get_ldesc` does not depend on `free_pebs`. -/
theorem get_ldesc_free_pebs_irrel (v : VolState) (f : Int) (lnum : Nat) :
    ubi_eba_get_ldesc { v with tbl := { v.tbl with free_pebs := f } } lnum
      = ubi_eba_get_ldesc v lnum := rfl

/-- After `ubi_eba_unmap_leb` (in a writable world) the LEB reads back as
unmapped, whether or not the WL put failed. -/
theorem get_ldesc_pnum_after_unmap (w : World) (lnum : Nat)
    (hro : w.ro_mode = false) :
    (ubi_eba_get_ldesc (ubi_eba_unmap_leb w lnum).1.vol lnum).pnum < 0 := by
  by_cases hpn : (ubi_eba_get_ldesc w.vol lnum).pnum < 0
  · simp only [ubi_eba_unmap_leb, hro, Bool.false_eq_true, if_false,
      leb_write_lock, leb_write_unlock]
    rw [if_pos hpn]
    exact hpn
  · have h1 := get_ldesc_pnum_after_invalidate w.vol lnum false
      (not_lt.mp hpn)
    simp only [ubi_eba_unmap_leb, hro, Bool.false_eq_true, if_false,
      leb_write_lock, leb_write_unlock, ubi_eba_put_peb, ubi_wl_put_peb]
    rw [if_neg hpn]
    split
    · split
      · exact lt_of_eq_of_lt h1 (by decide)
      · exact lt_of_eq_of_lt h1 (by decide)
    · exact lt_of_eq_of_lt h1 (by decide)

/-- C4: a `read_leb` on a dynamic volume whose target LEB is unmapped
(pnum negative) delivers a buffer of `len` 0xFF bytes and returns success;
consequently, after `unmap_leb` in a writable world, a read of the same LEB
returns all 0xFF and succeeds (even when the WL put of the released PEB
failed, since the mapping is cleared first). -/
theorem ubi_eba_read_leb_unmapped_ff_spec (w : World) (lnum offset len : Nat)
    (check0 : Bool) (_hdyn : w.vol_type_static = false) :
    ((ubi_eba_get_ldesc w.vol lnum).pnum < 0 →
      (ubi_eba_read_leb w lnum offset len check0).2
        = (0, List.replicate len 255)) ∧
    (w.ro_mode = false →
      (ubi_eba_read_leb (ubi_eba_unmap_leb w lnum).1 lnum offset len
          check0).2 = (0, List.replicate len 255)) := by
  constructor
  · intro hpn
    exact ubi_eba_read_leb_unmapped w lnum offset len check0 hpn
  · intro hro
    exact ubi_eba_read_leb_unmapped _ lnum offset len check0
      (get_ldesc_pnum_after_unmap w lnum hro)

/-- A concrete base world used by the closed witnesses: a dynamic SLC
volume with one LEB mapped to PEB 7, fully benign oracles. -/
def W0 : World :=
  { vol := { mlc_safe := false, K := 1,
             tbl := { cdescs := [.p 7], consolidatedBits := [false],
                      openL := [], clean := [], dirty := [], free_pebs := 4,
                      cpebArena := [] },
             conso := reset_consolidation },
    vol_id := 3, vol_type_static := false, ro_mode := false,
    bad_allowed := true, fast_attach := false,
    leb_start := 256, leb_size := 1024, min_io_size := 128,
    peb_size := 2048, data_pad := 0,
    global_sqnum := 100, peb_buf := List.replicate 2048 0,
    ioRead := fun _ _ len => (0, List.replicate len 170),
    ioWrite := fun _ _ => 0,
    vidWr := fun _ => 0,
    vidRd := fun _ => (0, defaultVidHdr),
    vidsRd := fun _ => (0, [defaultVidHdr]),
    wlGet := [30, 31, 32],
    wlPut := fun _ => 0,
    scrubRes := fun _ => 0,
    crcFn := fun _ => 0,
    allocOk := [],
    trylockRes := [],
    volPresent := true,
    events := [], dataWrites := [], vidWrites := [], puts := [],
    scrubs := [], asserts := [] }

/-- `W0` with its single LEB already unmapped. -/
def W0u : World :=
  { W0 with vol := { W0.vol with tbl :=
      { W0.vol.tbl with cdescs := [.p UBI_LEB_UNMAPPED] } } }

/-- Witness for C4: reading the unmapped LEB of `W0u` yields two 0xFF bytes
and success, and unmapping then reading LEB 0 of `W0` does too. -/
theorem ubi_eba_read_leb_unmapped_ff_witness :
    (ubi_eba_read_leb W0u 0 0 2 false).2 = (0, List.replicate 2 255) ∧
    (ubi_eba_read_leb (ubi_eba_unmap_leb W0 0).1 0 0 2 false).2
      = (0, List.replicate 2 255) :=
  ⟨(ubi_eba_read_leb_unmapped_ff_spec W0u 0 0 2 false rfl).1 (by decide),
   (ubi_eba_read_leb_unmapped_ff_spec W0 0 0 2 false rfl).2 rfl⟩

/-! ## Write path: recover_peb, unconsolidate_leb, ubi_eba_write_leb,
ubi_eba_atomic_leb_change -/

/-- `memcpy`/`memset` into a byte buffer: overwrite `src.length` bytes of
`dst` starting at `pos`. -/
def writeBytes (dst : List Nat) (pos : Nat) (src : List Nat) : List Nat :=
  dst.take pos ++ src ++ dst.drop (pos + src.length)

/-- `ubi_io_slc_write` / `ubi_io_write_data` collaborator: records the
attempted write with its payload. -/
def ubi_io_write_data (w : World) (buf : List Nat) (pnum : Int)
    (offset len : Nat) : World × Int :=
  ({ w with dataWrites := (pnum, offset, buf.take len) :: w.dataWrites },
   w.ioWrite pnum offset)

/-- The `retry:` body of `recover_peb` (eba.c:945-1032).  `fuel + 1` is the
number of attempts still allowed (`tries` bounded by UBI_IO_RETRIES). -/
def recover_peb_retry (lnum : Nat) (buf : List Nat) (offset len : Nat) :
    Nat → World → UbiLebDesc → World × Int
  | 0, w, _ => (w, 0)
  | fuel + 1, w, ldesc =>
    let g := ubi_wl_get_peb w
    let w := g.1
    let new_pnum := g.2
    if new_pnum < 0 then (w, new_pnum)
    else
      let rv := w.vidRd ldesc.pnum
      if rv.1 ≠ 0 ∧ rv.1 ≠ UBI_IO_BITFLIPS then
        let e1 := if 0 < rv.1 then -EIOERR else rv.1
        let p := ubi_wl_put_peb w new_pnum 1
        (p.1, e1)
      else
        let sq := next_sqnum w
        let w := sq.1
        let hdr := { rv.2 with sqnum := sq.2 }
        let hv := ubi_io_write_vid_hdr w new_pnum hdr
        let w := hv.1
        if hv.2 ≠ 0 then
          let p := ubi_wl_put_peb w new_pnum 1
          if fuel = 0 then (p.1, hv.2)
          else recover_peb_retry lnum buf offset len fuel p.1 ldesc
        else
          let data_size := offset + len
          let w := { w with
            peb_buf := writeBytes w.peb_buf offset (List.replicate len 255) }
          let afterRead : Except (World × Int) World :=
            if 0 < offset then
              let rr := read_leb w ldesc 0 offset
              if rr.1 ≠ 0 ∧ rr.1 ≠ UBI_IO_BITFLIPS then
                let p := ubi_wl_put_peb w new_pnum 1
                .error (p.1, rr.1)
              else
                .ok { w with
                  peb_buf := writeBytes w.peb_buf 0 (rr.2.take offset) }
            else .ok w
          match afterRead with
          | .error we => we
          | .ok w =>
            let w := { w with
              peb_buf := writeBytes w.peb_buf offset (buf.take len) }
            let dw := write_leb w w.peb_buf
                { ldesc with pnum := new_pnum } 0 data_size
            let w := dw.1
            if dw.2 ≠ 0 then
              let p := ubi_wl_put_peb w new_pnum 1
              if fuel = 0 then (p.1, dw.2)
              else recover_peb_retry lnum buf offset len fuel p.1 ldesc
            else
              let w := { w with vol := ubi_eba_set_pnum w.vol lnum new_pnum }
              let p := ubi_wl_put_peb w ldesc.pnum 1
              (p.1, 0)

/-- `recover_peb` (eba.c:931-1032): called after a write failure at
`offset` with `len` unwritten bytes in hand. -/
def recover_peb (w : World) (ldesc : UbiLebDesc) (lnum : Nat)
    (buf : List Nat) (offset len : Nat) : World × Int :=
  let aOk := w.allocOk.headD true
  let w := { w with allocOk := w.allocOk.tail }
  if !aOk then (w, -ENOMEM)
  else recover_peb_retry lnum buf offset len (UBI_IO_RETRIES + 1) w ldesc

/-- `unconsolidate_leb` (eba.c:1037-1102): synthesize a fresh SLC-safe PEB
holding only this LEB's contents, invalidate the old slot, update the
entry.  Returns the updated LEB descriptor. -/
def unconsolidate_leb (w : World) (ldesc : UbiLebDesc) (len : Nat) :
    World × UbiLebDesc × Int :=
  if ldesc.lpos < 0 ∨ len = 0 then (w, ldesc, 0)
  else
    let g := ubi_eba_get_peb_w w
    let w := g.1
    let pnum := g.2
    if pnum < 0 then (w, ldesc, pnum)
    else
      let w := { w with
        peb_buf := writeBytes w.peb_buf 0 (List.replicate w.leb_start 0) }
      let rr := read_leb w ldesc 0 len
      if rr.1 ≠ 0 then
        let p := ubi_eba_put_peb w pnum 0
        (p.1, ldesc, rr.1)
      else
        let w := { w with
          peb_buf := writeBytes w.peb_buf w.leb_start (rr.2.take len) }
        let payload := (w.peb_buf.drop w.leb_start).take len
        let sq := next_sqnum w
        let w := sq.1
        let hdr := { defaultVidHdr with
          sqnum := sq.2, vol_id := w.vol_id, lnum := ldesc.lnum,
          compat := ubi_get_compat w.vol_id, data_pad := w.data_pad,
          vol_type := UBI_VID_DYNAMIC, data_size := len, copy_flag := 1,
          data_crc := w.crcFn payload }
        let hv := ubi_io_write_vid_hdr w pnum hdr
        let w := hv.1
        if hv.2 ≠ 0 then
          let p := ubi_eba_put_peb w pnum 0
          (p.1, ldesc, hv.2)
        else
          let dw := ubi_io_write_data w payload pnum w.leb_start len
          let w := dw.1
          if dw.2 ≠ 0 then
            let p := ubi_eba_put_peb w pnum 0
            (p.1, ldesc, dw.2)
          else
            let inv := ubi_eba_invalidate_leb_locked w.vol ldesc false
            let w := { w with vol := inv.1 }
            let w := if inv.2 then (ubi_eba_put_peb w ldesc.pnum 0).1 else w
            let w := { w with vol := { w.vol with tbl := { w.vol.tbl with
              cdescs := w.vol.tbl.cdescs.set ldesc.lnum.toNat (.p pnum) } } }
            (w, { ldesc with pnum := pnum, lpos := -1 }, 0)

/-- `leb_updated` (eba.c:680-699): only MLC tables have the
`consolidated` bitmap allocated, which is what the source's NULL test
checks; unlink the entry and put it at the head of the open list, stopping
a consolidation targeting it. -/
def leb_updated (w : World) (ldesc : UbiLebDesc) : World :=
  if !w.vol.mlc_safe then w
  else
    let t := listDelAll ldesc.lnum w.vol.tbl
    let conso := stop_leb_consolidation w.vol.K t.cpebArena w.vol.conso
        ldesc.lnum
    let t := { t with openL := ldesc.lnum :: t.openL }
    { w with vol := { w.vol with tbl := t, conso := conso } }

/-- The `retry:` body of the unmapped-LEB branch of `ubi_eba_write_leb`
(eba.c:1176-1241), including the `write_error:` tail.  `fuel + 1` is the
number of attempts still allowed. -/
def write_leb_retry (lnum : Nat) (buf : List Nat) (offset len : Nat) :
    Nat → World → UbiLebDesc → UbiVidHdr → World × Int
  | 0, w, _, _ => (w, 0)
  | fuel + 1, w, ldesc0, hdr =>
    let g := ubi_eba_get_peb_w w
    let w := g.1
    let pnum := g.2
    if pnum < 0 then (leb_write_unlock w w.vol_id lnum, pnum)
    else
      let ldesc := { ldesc0 with pnum := pnum }
      let hv := ubi_io_write_vid_hdr w pnum hdr
      let w := hv.1
      let afterData : World × Int :=
        if hv.2 ≠ 0 then (w, hv.2)
        else if len ≠ 0 then write_leb w buf ldesc offset len
        else (w, 0)
      let w := afterData.1
      let e := afterData.2
      if e = 0 then
        let w := { w with vol := ubi_eba_set_pnum w.vol lnum pnum }
        let w := leb_updated w ldesc
        (leb_write_unlock w w.vol_id lnum, 0)
      else if e ≠ -EIOERR ∨ ¬ w.bad_allowed then
        (leb_write_unlock { w with ro_mode := true } w.vol_id lnum, e)
      else
        let p := ubi_eba_put_peb w pnum 1
        if p.2 ≠ 0 ∨ fuel = 0 then
          (leb_write_unlock { p.1 with ro_mode := true } w.vol_id lnum, p.2)
        else
          let sq := next_sqnum p.1
          write_leb_retry lnum buf offset len fuel sq.1 ldesc0
            { hdr with sqnum := sq.2 }

/-- `ubi_eba_write_leb` (eba.c:1118-1242). -/
def ubi_eba_write_leb (w : World) (lnum : Nat) (buf : List Nat)
    (offset len : Nat) : World × Int :=
  if w.ro_mode then (w, -EROFS)
  else
    let w := leb_write_lock w w.vol_id lnum
    let u := unconsolidate_leb w (ubi_eba_get_ldesc w.vol lnum) len
    let w := u.1
    let ldesc := u.2.1
    if u.2.2 ≠ 0 then (leb_write_unlock w w.vol_id lnum, u.2.2)
    else if 0 ≤ ldesc.pnum then
      let dres := write_leb w buf ldesc offset len
      let w := dres.1
      if dres.2 ≠ 0 then
        let r2 :=
          if dres.2 = -EIOERR ∧ w.bad_allowed then
            recover_peb w ldesc lnum buf offset len
          else (w, dres.2)
        if r2.2 ≠ 0 then
          (leb_write_unlock { r2.1 with ro_mode := true } w.vol_id lnum, r2.2)
        else (leb_write_unlock r2.1 w.vol_id lnum, 0)
      else (leb_write_unlock w w.vol_id lnum, 0)
    else
      let aOk := w.allocOk.headD true
      let w := { w with allocOk := w.allocOk.tail }
      if !aOk then (leb_write_unlock w w.vol_id lnum, -ENOMEM)
      else
        let sq := next_sqnum w
        let w := sq.1
        let hdr := { defaultVidHdr with
          vol_type := UBI_VID_DYNAMIC, sqnum := sq.2, vol_id := w.vol_id,
          lnum := lnum, compat := ubi_get_compat w.vol_id,
          data_pad := w.data_pad }
        write_leb_retry lnum buf offset len (UBI_IO_RETRIES + 1) w ldesc hdr

/-- The `retry:` body of `ubi_eba_atomic_leb_change` (eba.c:1430-1496),
including the `write_error:` tail. -/
def atomic_change_retry (lnum : Nat) (buf : List Nat) (len : Nat)
    (oldesc : UbiLebDesc) :
    Nat → World → UbiVidHdr → World × Int
  | 0, w, _ => (w, 0)
  | fuel + 1, w, hdr =>
    let g := ubi_eba_get_peb_w w
    let w := g.1
    let pnum := g.2
    if pnum < 0 then (leb_write_unlock w w.vol_id lnum, pnum)
    else
      let ldesc : UbiLebDesc := { lnum := lnum, pnum := pnum, lpos := -1 }
      let hv := ubi_io_write_vid_hdr w pnum hdr
      let w := hv.1
      let afterData : World × Int :=
        if hv.2 ≠ 0 then (w, hv.2)
        else write_leb w buf ldesc 0 len
      let w := afterData.1
      let e := afterData.2
      if e = 0 then
        let w := { w with vol := ubi_eba_set_pnum w.vol lnum pnum }
        let w := leb_updated w ldesc
        if 0 ≤ oldesc.pnum then
          let p := ubi_eba_put_peb w oldesc.pnum 0
          (leb_write_unlock p.1 w.vol_id lnum, p.2)
        else (leb_write_unlock w w.vol_id lnum, 0)
      else if e ≠ -EIOERR ∨ ¬ w.bad_allowed then
        (leb_write_unlock { w with ro_mode := true } w.vol_id lnum, e)
      else
        let p := ubi_eba_put_peb w pnum 1
        if p.2 ≠ 0 ∨ fuel = 0 then
          (leb_write_unlock { p.1 with ro_mode := true } w.vol_id lnum, p.2)
        else
          let sq := next_sqnum p.1
          atomic_change_retry lnum buf len oldesc fuel sq.1
            { hdr with sqnum := sq.2 }

/-- `ubi_eba_atomic_leb_change` (eba.c:1383-1497).  The `len == 0` special
case unmaps the LEB and then writes it with an empty buffer
(eba.c:1394-1403). -/
def ubi_eba_atomic_leb_change (w : World) (lnum : Nat) (buf : List Nat)
    (len : Nat) : World × Int :=
  if w.ro_mode then (w, -EROFS)
  else if len = 0 then
    let r := ubi_eba_unmap_leb w lnum
    if r.2 ≠ 0 then r
    else ubi_eba_write_leb r.1 lnum [] 0 0
  else
    let aOk := w.allocOk.headD true
    let w := { w with allocOk := w.allocOk.tail }
    if !aOk then (w, -ENOMEM)
    else
      let w := leb_write_lock w w.vol_id lnum
      let oldesc := ubi_eba_get_ldesc w.vol lnum
      let sq := next_sqnum w
      let w := sq.1
      let hdr := { defaultVidHdr with
        sqnum := sq.2, vol_id := w.vol_id, lnum := lnum,
        compat := ubi_get_compat w.vol_id, data_pad := w.data_pad,
        vol_type := UBI_VID_DYNAMIC, data_size := len, copy_flag := 1,
        data_crc := w.crcFn (buf.take len) }
      atomic_change_retry lnum buf len oldesc (UBI_IO_RETRIES + 1) w hdr

/-- The composition the spec's 4.5.4 sentence describes: `unmap`, then
`write(empty)`, propagating the first error. -/
def unmap_then_write_empty (w : World) (lnum : Nat) : World × Int :=
  let r := ubi_eba_unmap_leb w lnum
  if r.2 ≠ 0 then r else ubi_eba_write_leb r.1 lnum [] 0 0

/-- C5: `atomic_leb_change` with `len = 0` is exactly the sequential
composition of `unmap_leb` followed by `write_leb` of an empty buffer —
same final world (all traces included) and same result: the first error
among the two operations, or the success of the empty write. -/
theorem ubi_eba_atomic_leb_change_len0 (w : World) (lnum : Nat)
    (buf : List Nat) :
    ubi_eba_atomic_leb_change w lnum buf 0 = unmap_then_write_empty w lnum := by
  cases h : w.ro_mode with
  | true =>
      simp only [ubi_eba_atomic_leb_change, unmap_then_write_empty,
        ubi_eba_unmap_leb, h]
      rfl
  | false =>
      simp only [ubi_eba_atomic_leb_change, unmap_then_write_empty,
        ubi_eba_unmap_leb, h]
      rfl

/-! ## C8: the recovery image of recover_peb -/

/-- The recovery image as claim C8 (spec 4.5.5) describes it: the valid
prefix `[0, offset)`, the in-hand buffer at `[offset, offset + len)`, then
0xFF filling `[offset + len, end of LEB)`. -/
def recoverImageSpec (oldPrefix buf : List Nat)
    (offset len leb_size : Nat) : List Nat :=
  oldPrefix.take offset ++ buf.take len ++
    List.replicate (leb_size - (offset + len)) 255

/-- `W0` with an 8-byte LEB and media that reads back bytes 1, 2, 3, ... -/
def W8 : World :=
  { W0 with leb_size := 8,
            ioRead := fun _ _ l => (0, (List.range l).map (fun i => i + 1)) }

/-- C8 counterexample: recovering from a write failure at offset 2 with 2
bytes in hand on an 8-byte LEB, the payload `recover_peb` actually writes
to the new PEB is the 4-byte merge `[1, 2, 3, 4]` — the code never fills
`[offset+len, end of LEB)` with 0xFF (the `memset` at eba.c:977 covers
`[offset, offset+len)` and is immediately overwritten by the `memcpy` at
eba.c:988, and only `offset + len` bytes are written), so the written image
differs from the one the claim describes. -/
theorem recover_peb_no_ff_fill :
    ((recover_peb W8 { lnum := 0, pnum := 7, lpos := -1 } 0 [3, 4]
        2 2).1.dataWrites.headD (0, 0, [])).2.2 = [1, 2, 3, 4] ∧
    recoverImageSpec ((W8.ioRead 7 W8.leb_start 2).2) [3, 4] 2 2 W8.leb_size
      = [1, 2, 3, 4, 255, 255, 255, 255] ∧
    ([1, 2, 3, 4] : List Nat) ≠ [1, 2, 3, 4, 255, 255, 255, 255] := by
  refine ⟨by decide, by decide, by decide⟩

/-- The buffer assembly of `recover_peb` (eba.c:975-991): after the memset
of `[offset, offset+len)`, the prefix read into `[0, offset)` and the
memcpy of the in-hand buffer at `[offset, offset+len)`, the first
`offset + len` bytes are exactly the prefix followed by the buffer. -/
theorem recover_payload_take (pb pre buf2 : List Nat) (offset len : Nat)
    (hpre : pre.length = offset) (hb2 : buf2.length = len) :
    List.take (offset + len)
      (writeBytes (writeBytes (writeBytes pb offset (List.replicate len 255))
        0 (List.take offset pre)) offset buf2)
      = pre ++ buf2 := by
  have hpre' : List.take offset pre = pre :=
    List.take_of_length_le (le_of_eq hpre)
  simp only [writeBytes, List.take_zero, List.nil_append, hpre']
  rw [List.take_left' hpre]
  rw [List.take_append_eq_append_take]
  have hlen2 : (pre ++ buf2).length = offset + len := by
    simp [List.length_append, hpre, hb2]
  rw [List.take_of_length_le (le_of_eq hlen2)]
  rw [hlen2, Nat.sub_self, List.take_zero, List.append_nil]

/-- First-try success of the `recover_peb` retry body: the written payload
is the prefix read from the old PEB followed by the in-hand buffer (exactly
`offset + len` bytes), the VID header written to the new PEB carries the
freshly bumped sequence number, the mapping moves to the new PEB and the
old PEB goes back to WL with torture requested. -/
theorem recover_peb_retry_first_try
    (lnum : Nat) (buf : List Nat) (offset len : Nat) (fuel : Nat)
    (w : World) (ldesc : UbiLebDesc) (new : Int)
    (hwl : w.wlGet.headD (-ENOSPC) = new)
    (hnew : 0 ≤ new)
    (hvr : (w.vidRd ldesc.pnum).1 = 0)
    (hvw : w.vidWr new = 0)
    (hoff : 0 < offset)
    (hrd : (w.ioRead ldesc.pnum (0 + w.leb_start) offset).1 = 0)
    (hrdlen : (w.ioRead ldesc.pnum (0 + w.leb_start) offset).2.length
      = offset)
    (hwr : w.ioWrite new (0 + w.leb_start) = 0)
    (hlpos : ldesc.lpos < 0)
    (hmlc : w.vol.mlc_safe = true)
    (hbl : len ≤ buf.length)
    (hlnum : lnum < w.vol.tbl.cdescs.length) :
    (recover_peb_retry lnum buf offset len (fuel + 1) w ldesc).2 = 0 ∧
    ((recover_peb_retry lnum buf offset len (fuel + 1) w
        ldesc).1.dataWrites.headD (0, 0, [])).1 = new ∧
    ((recover_peb_retry lnum buf offset len (fuel + 1) w
        ldesc).1.dataWrites.headD (0, 0, [])).2.2
      = (w.ioRead ldesc.pnum (0 + w.leb_start) offset).2 ++ buf.take len ∧
    (recover_peb_retry lnum buf offset len (fuel + 1) w
        ldesc).1.puts.headD (0, 0) = (ldesc.pnum, 1) ∧
    ((recover_peb_retry lnum buf offset len (fuel + 1) w
        ldesc).1.vidWrites.headD (0, defaultVidHdr)).2.sqnum
      = w.global_sqnum ∧
    (recover_peb_retry lnum buf offset len (fuel + 1) w
        ldesc).1.global_sqnum = (w.global_sqnum + 1) % U64 ∧
    (recover_peb_retry lnum buf offset len (fuel + 1) w
        ldesc).1.vol.tbl.cdescs.getD lnum (.p UBI_LEB_UNMAPPED) = .p new := by
  have hnl : ¬ new < 0 := not_lt.mpr hnew
  simp only [recover_peb_retry, ubi_wl_get_peb, ubi_wl_put_peb, next_sqnum,
    ubi_io_write_vid_hdr, ubi_eba_set_pnum, read_leb, write_leb, hwl, hnl,
    hvr, hvw, hoff, hmlc, hlpos, hrd, hwr, if_false, if_true, ite_true,
    ite_false, ne_eq, not_true_eq_false, not_false_eq_true, and_false,
    false_and, and_true, true_and, OfNat.ofNat_ne_zero, not_lt]
  have hpay := recover_payload_take w.peb_buf
    (w.ioRead ldesc.pnum (0 + w.leb_start) offset).2 (buf.take len) offset
    len hrdlen (by rw [List.length_take]; omega)
  simp only [List.headD_cons, getD_set_ite, hlnum, if_true, hpay, and_self,
    true_and, and_true]

/-- C8 (amended): invoked after a write failure at `offset` with `len`
bytes in hand, on a first-try success `recover_peb` builds the recovery
image as the valid prefix `[0, offset)` read from the old PEB followed by
the in-hand buffer at `[offset, offset + len)` — exactly `offset + len`
bytes, the tail of the LEB left unwritten (it reads back 0xFF on erased
flash) — writes it, together with a VID header carrying the freshly bumped
sequence number, to the new PEB, updates the mapping to the new PEB, and
returns the old PEB to WL with torture requested. -/
theorem recover_peb_success_spec
    (w : World) (ldesc : UbiLebDesc) (lnum : Nat) (buf : List Nat)
    (offset len : Nat) (new : Int)
    (halloc : w.allocOk.headD true = true)
    (hwl : w.wlGet.headD (-ENOSPC) = new)
    (hnew : 0 ≤ new)
    (hvr : (w.vidRd ldesc.pnum).1 = 0)
    (hvw : w.vidWr new = 0)
    (hoff : 0 < offset)
    (hrd : (w.ioRead ldesc.pnum (0 + w.leb_start) offset).1 = 0)
    (hrdlen : (w.ioRead ldesc.pnum (0 + w.leb_start) offset).2.length
      = offset)
    (hwr : w.ioWrite new (0 + w.leb_start) = 0)
    (hlpos : ldesc.lpos < 0)
    (hmlc : w.vol.mlc_safe = true)
    (hbl : len ≤ buf.length)
    (hlnum : lnum < w.vol.tbl.cdescs.length) :
    (recover_peb w ldesc lnum buf offset len).2 = 0 ∧
    ((recover_peb w ldesc lnum buf offset
        len).1.dataWrites.headD (0, 0, [])).1 = new ∧
    ((recover_peb w ldesc lnum buf offset
        len).1.dataWrites.headD (0, 0, [])).2.2
      = (w.ioRead ldesc.pnum (0 + w.leb_start) offset).2 ++ buf.take len ∧
    (recover_peb w ldesc lnum buf offset len).1.puts.headD (0, 0)
      = (ldesc.pnum, 1) ∧
    ((recover_peb w ldesc lnum buf offset
        len).1.vidWrites.headD (0, defaultVidHdr)).2.sqnum
      = w.global_sqnum ∧
    (recover_peb w ldesc lnum buf offset len).1.global_sqnum
      = (w.global_sqnum + 1) % U64 ∧
    (recover_peb w ldesc lnum buf offset
        len).1.vol.tbl.cdescs.getD lnum (.p UBI_LEB_UNMAPPED) = .p new := by
  have h := recover_peb_retry_first_try lnum buf offset len UBI_IO_RETRIES
    { w with allocOk := w.allocOk.tail } ldesc new hwl hnew hvr hvw hoff hrd
    hrdlen hwr hlpos hmlc hbl hlnum
  simp only [recover_peb, halloc, Bool.not_true, Bool.false_eq_true,
    if_false]
  exact h

/-- `W8` as an MLC-safe volume (the LEB being recovered is not
consolidated, `lpos = -1`). -/
def W8m : World :=
  { W8 with vol := { W8.vol with mlc_safe := true } }

/-- Witness for the amended C8 at `W8m`: recovery of a write failure at
offset 2 with bytes `[3, 4]` in hand writes payload `[1, 2] ++ [3, 4]` to
the fresh PEB 30 with the bumped sqnum 100, remaps LEB 0 to PEB 30 and
sends old PEB 7 to WL with torture. -/
theorem recover_peb_success_witness :
    (recover_peb W8m { lnum := 0, pnum := 7, lpos := -1 } 0 [3, 4] 2 2).2
      = 0 ∧
    ((recover_peb W8m { lnum := 0, pnum := 7, lpos := -1 } 0 [3, 4] 2
        2).1.dataWrites.headD (0, 0, [])).1 = 30 ∧
    ((recover_peb W8m { lnum := 0, pnum := 7, lpos := -1 } 0 [3, 4] 2
        2).1.dataWrites.headD (0, 0, [])).2.2
      = (W8m.ioRead 7 (0 + W8m.leb_start) 2).2 ++ List.take 2 [3, 4] ∧
    (recover_peb W8m { lnum := 0, pnum := 7, lpos := -1 } 0 [3, 4] 2
        2).1.puts.headD (0, 0) = (7, 1) ∧
    ((recover_peb W8m { lnum := 0, pnum := 7, lpos := -1 } 0 [3, 4] 2
        2).1.vidWrites.headD (0, defaultVidHdr)).2.sqnum = W8m.global_sqnum ∧
    (recover_peb W8m { lnum := 0, pnum := 7, lpos := -1 } 0 [3, 4] 2
        2).1.global_sqnum = (W8m.global_sqnum + 1) % U64 ∧
    (recover_peb W8m { lnum := 0, pnum := 7, lpos := -1 } 0 [3, 4] 2
        2).1.vol.tbl.cdescs.getD 0 (.p UBI_LEB_UNMAPPED) = .p 30 :=
  recover_peb_success_spec W8m { lnum := 0, pnum := 7, lpos := -1 } 0
    [3, 4] 2 2 30 rfl rfl (by decide) rfl rfl (by decide) rfl rfl rfl
    (by decide) rfl (by decide) (by decide)

/-! ## ubi_eba_copy_peb (eba.c:1977-2138) -/

def ETIMEDOUT : Int := 110

/-- `is_error_sane` (eba.c:1518-1524). -/
def is_error_sane (e : Int) : Bool :=
  !(e = -EIOERR ∨ e = -ENOMEM ∨ e = UBI_IO_BAD_HDR ∨
    e = UBI_IO_BAD_HDR_EBADMSG ∨ e = -ETIMEDOUT)

def ALIGN (x a : Nat) : Nat := (x + a - 1) / a * a

/-- `ubi_calc_data_len` (io.c, not under src), modelled from the spec:
strip trailing 0xFF bytes from the read buffer (the source also aligns the
result to `min_io_size`; the alignment plays no role in any claim). -/
def ubi_calc_data_len (b : List Nat) : Nat :=
  ((b.reverse.dropWhile (fun x => x = 255)).reverse).length

/-- `ubi_eba_copy_peb` (eba.c:1977-2138): copy the LEB held by `pfrom` to
`pto` on behalf of the WL mover.  Volume lookup, trylock outcome and I/O
come from the world's oracles; lock operations are traced. -/
def ubi_eba_copy_peb (w : World) (pfrom pto : Int) (vid_hdr : UbiVidHdr) :
    World × Int :=
  let vol_id := vid_hdr.vol_id
  let lnum := vid_hdr.lnum
  if !w.volPresent then (w, MOVE_CANCEL_RACE)
  else
    let tl := leb_write_trylock w vol_id lnum
    let w := tl.1
    if tl.2 ≠ 0 then (w, MOVE_RETRY)
    else
      let ldesc := ubi_eba_get_ldesc w.vol lnum.toNat
      if ldesc.pnum ≠ pfrom then
        (leb_write_unlock w vol_id lnum, MOVE_CANCEL_RACE)
      else
        let ds0 := if vid_hdr.vol_type = UBI_VID_STATIC then vid_hdr.data_size
          else w.leb_size - vid_hdr.data_pad
        let aldata0 := if vid_hdr.vol_type = UBI_VID_STATIC then
            ALIGN ds0 w.min_io_size
          else ds0
        let rr := w.ioRead pfrom w.leb_start aldata0
        if rr.1 ≠ 0 ∧ rr.1 ≠ UBI_IO_BITFLIPS then
          (leb_write_unlock w vol_id lnum, MOVE_SOURCE_RD_ERR)
        else
          let w := { w with
            peb_buf := writeBytes w.peb_buf 0 (rr.2.take aldata0) }
          let data_size := if vid_hdr.vol_type = UBI_VID_DYNAMIC then
              ubi_calc_data_len (w.peb_buf.take ds0)
            else ds0
          let aldata := if vid_hdr.vol_type = UBI_VID_DYNAMIC then data_size
            else aldata0
          let crc := w.crcFn (w.peb_buf.take data_size)
          let hdr1 := if 0 < data_size then
              { vid_hdr with
                copy_flag := 1, data_size := data_size, data_crc := crc }
            else vid_hdr
          let sq := next_sqnum w
          let w := sq.1
          let hv := ubi_io_write_vid_hdr w pto { hdr1 with sqnum := sq.2 }
          let w := hv.1
          if hv.2 ≠ 0 then
            (leb_write_unlock w vol_id lnum,
             if hv.2 = -EIOERR then MOVE_TARGET_WR_ERR else hv.2)
          else
            let rb := w.vidRd pto
            if rb.1 ≠ 0 then
              if rb.1 ≠ UBI_IO_BITFLIPS then
                (leb_write_unlock w vol_id lnum,
                 if is_error_sane rb.1 then MOVE_TARGET_RD_ERR else rb.1)
              else (leb_write_unlock w vol_id lnum, MOVE_TARGET_BITFLIPS)
            else
              let afterData : World × Int :=
                if 0 < data_size then
                  let dw := ubi_io_write_data w (w.peb_buf.take data_size)
                      pto w.leb_start aldata
                  if dw.2 ≠ 0 then
                    (dw.1, if dw.2 = -EIOERR then MOVE_TARGET_WR_ERR else dw.2)
                  else (dw.1, 0)
                else (w, 0)
              if afterData.2 ≠ 0 then
                (leb_write_unlock afterData.1 vol_id lnum, afterData.2)
              else
                let w := { afterData.1 with
                  vol := ubi_eba_set_pnum afterData.1.vol lnum.toNat pto }
                (leb_write_unlock w vol_id lnum, 0)

/-- C6: the three race exits of `ubi_eba_copy_peb` return only soft codes:
a missing volume yields CANCEL_RACE with the world untouched (no lock
taken); a write-trylock that does not acquire the lock (contention or
error) yields RETRY with the mapping untouched and only the non-blocking
trylock in the lock trace; and a mapping that no longer points at `pfrom`
after acquisition yields CANCEL_RACE with the mapping untouched and the
lock released. -/
theorem ubi_eba_copy_peb_soft_codes (w : World) (pfrom pto : Int)
    (hdr : UbiVidHdr) :
    (w.volPresent = false →
      ubi_eba_copy_peb w pfrom pto hdr = (w, MOVE_CANCEL_RACE)) ∧
    (w.volPresent = true → w.trylockRes.headD 0 ≠ 0 →
      (ubi_eba_copy_peb w pfrom pto hdr).2 = MOVE_RETRY ∧
      (ubi_eba_copy_peb w pfrom pto hdr).1.vol.tbl.cdescs
        = w.vol.tbl.cdescs ∧
      (ubi_eba_copy_peb w pfrom pto hdr).1.events
        = .wrTry hdr.vol_id hdr.lnum :: w.events) ∧
    (w.volPresent = true → w.trylockRes.headD 0 = 0 →
      (ubi_eba_get_ldesc w.vol hdr.lnum.toNat).pnum ≠ pfrom →
      (ubi_eba_copy_peb w pfrom pto hdr).2 = MOVE_CANCEL_RACE ∧
      (ubi_eba_copy_peb w pfrom pto hdr).1.vol.tbl.cdescs
        = w.vol.tbl.cdescs ∧
      (ubi_eba_copy_peb w pfrom pto hdr).1.events
        = .wrUnlock hdr.vol_id hdr.lnum
          :: .wrTry hdr.vol_id hdr.lnum :: w.events) := by
  refine ⟨?_, ?_, ?_⟩
  · intro hvp
    simp only [ubi_eba_copy_peb, hvp, Bool.not_false, if_true]
  · intro hvp h2
    simp only [ubi_eba_copy_peb, hvp, Bool.not_true, Bool.false_eq_true,
      if_false, leb_write_trylock]
    rw [if_pos h2]
    exact ⟨rfl, rfl, rfl⟩
  · intro hvp h2 hpn
    simp only [ubi_eba_copy_peb, hvp, Bool.not_true, Bool.false_eq_true,
      if_false, leb_write_trylock, leb_write_unlock]
    rw [if_neg (by simpa using h2)]
    rw [if_pos hpn]
    exact ⟨rfl, rfl, rfl⟩

/-- Concrete VID header for the C6 witness. -/
def hdrW : UbiVidHdr :=
  { defaultVidHdr with
    vol_id := 3, lnum := 0, vol_type := UBI_VID_DYNAMIC }

/-- Witness for C6 at `W0`: with the volume present and the trylock
acquired, a stale mapping (LEB 0 maps to PEB 7, not the claimed source 8)
yields CANCEL_RACE, the mapping is untouched and the lock is released;
with a contended trylock the result is RETRY with the mapping untouched. -/
theorem ubi_eba_copy_peb_soft_codes_witness :
    ((ubi_eba_copy_peb { W0 with trylockRes := [0] } 8 30 hdrW).2
        = MOVE_CANCEL_RACE ∧
      (ubi_eba_copy_peb { W0 with trylockRes := [0] } 8 30
          hdrW).1.vol.tbl.cdescs
        = ({ W0 with trylockRes := [0] } : World).vol.tbl.cdescs ∧
      (ubi_eba_copy_peb { W0 with trylockRes := [0] } 8 30 hdrW).1.events
        = .wrUnlock hdrW.vol_id hdrW.lnum :: .wrTry hdrW.vol_id hdrW.lnum
          :: ({ W0 with trylockRes := [0] } : World).events) ∧
    ((ubi_eba_copy_peb { W0 with trylockRes := [1] } 8 30 hdrW).2
        = MOVE_RETRY ∧
      (ubi_eba_copy_peb { W0 with trylockRes := [1] } 8 30
          hdrW).1.vol.tbl.cdescs
        = ({ W0 with trylockRes := [1] } : World).vol.tbl.cdescs ∧
      (ubi_eba_copy_peb { W0 with trylockRes := [1] } 8 30 hdrW).1.events
        = .wrTry hdrW.vol_id hdrW.lnum
          :: ({ W0 with trylockRes := [1] } : World).events) :=
  ⟨(ubi_eba_copy_peb_soft_codes { W0 with trylockRes := [0] } 8 30
      hdrW).2.2 rfl rfl (by decide),
   (ubi_eba_copy_peb_soft_codes { W0 with trylockRes := [1] } 8 30
      hdrW).2.1 rfl (by decide)⟩

/-! ## Consolidator: select_leb_for_consolidation and
continue_consolidation -/

/-- `select_leb_for_consolidation` (eba.c:1526-1557): prefer
`closed.dirty[0]`, else the open list; take the first entry, reset
`loffset`, advance `lpos` and record the LEB in the destination cpeb.
(The second back-to-back `mutex_lock` of the source, eba.c:1554, is a
concurrency artifact with no sequential content.) -/
def select_leb_for_consolidation (w : World) : World × Int :=
  let pool : Option (List Int) :=
    if (w.vol.tbl.dirty.getD 0 []) ≠ [] then some (w.vol.tbl.dirty.getD 0 [])
    else if w.vol.tbl.openL ≠ [] then some w.vol.tbl.openL
    else none
  match pool with
  | some l =>
      let lnum := l.headD UBI_LEB_UNMAPPED
      let ctx := w.vol.conso
      let lpos2 := ctx.lpos + 1
      let r := ctx.cpebRef.getD 0
      let arena := w.vol.tbl.cpebArena
      let newArena :=
        match arena.getD r none with
        | some cp =>
            arena.set r (some { cp with
              lnums := cp.lnums.set lpos2.toNat lnum })
        | none => arena
      let ctx2 := { ctx with loffset := 0, lnum := lnum, lpos := lpos2 }
      ({ w with vol := { w.vol with
          tbl := { w.vol.tbl with cpebArena := newArena },
          conso := ctx2 } }, 0)
  | none => (w, -ENOENT)

/-- `continue_consolidation` (eba.c:1662-1717): pick the next source LEB
when the current one is exhausted, try-lock it for reading, copy one
`min_io_size` page from the source into the destination slot, release the
lock, advance `loffset`.  The trylock outcome is taken verbatim from the
source: `err == 0` returns `-EBUSY` and `err == 1` (contention) falls
through to the copy. -/
def continue_consolidation (w : World) : World × Int :=
  let sel : World × Int :=
    if w.vol.conso.loffset = w.leb_size then select_leb_for_consolidation w
    else (w, 0)
  if sel.2 ≠ 0 then sel
  else
    let w := sel.1
    let src := ubi_eba_get_ldesc w.vol w.vol.conso.lnum.toNat
    let tl := leb_read_trylock w w.vol_id w.vol.conso.lnum
    let w := tl.1
    if tl.2 = 0 then (w, -EBUSY)
    else if tl.2 < 0 then (w, tl.2)
    else
      let rr := read_leb w src w.vol.conso.loffset w.min_io_size
      let w := leb_read_unlock w w.vol_id w.vol.conso.lnum
      if rr.1 ≠ 0 ∧ ¬ mtd_is_bitflip rr.1 then (w, rr.1)
      else
        let ldesc : UbiLebDesc := { lnum := w.vol.conso.lnum,
                                    pnum := w.vol.conso.pnum,
                                    lpos := w.vol.conso.lpos }
        let dw := write_leb w rr.2 ldesc w.vol.conso.loffset w.min_io_size
        let w := dw.1
        if dw.2 ≠ 0 then (w, dw.2)
        else
          ({ w with vol := { w.vol with conso := { w.vol.conso with
              loffset := w.vol.conso.loffset + w.min_io_size } } }, -EAGAIN)

/-- Concrete MLC world in the consolidator's Copying state: destination
cpeb at arena 0 (PEB 20), current source LEB 0 at slot 0, `loffset = 0`,
4-byte LEBs, 2-byte pages. -/
def WC7 : World :=
  { W0 with
    leb_size := 4, min_io_size := 2,
    vol := {
      mlc_safe := true, K := 2,
      tbl := { cdescs := [.p 10, .p 11], consolidatedBits := [false, false],
               openL := [1], clean := [], dirty := [[]], free_pebs := 4,
               cpebArena := [some { pnum := 20, lnums := [0, -1] }] },
      conso := { cancel := false, lnum := 0, pnum := -1, lpos := 0,
                 loffset := 0, cpebRef := some 0 } } }

/-- C7 is violated by the code: in the Copying state the trylock check of
`continue_consolidation` is inverted (eba.c:1684-1688, `if (err == 0)
return -EBUSY;`).  When `leb_read_trylock` reports 0 — the lock was
acquired — the function returns the BUSY cancellation code without copying
anything; when it reports 1 — contention — the page copy proceeds (without
holding the lock, which is then even released): the run returns -EAGAIN
and performs one more data write.  The claim (and the source's own comment
at eba.c:1679-1683) state the opposite behavior. -/
theorem continue_consolidation_trylock_inverted :
    (continue_consolidation { WC7 with trylockRes := [0] }).2 = -EBUSY ∧
    (continue_consolidation { WC7 with trylockRes := [0] }).1.dataWrites
      = ({ WC7 with trylockRes := [0] } : World).dataWrites ∧
    (continue_consolidation { WC7 with trylockRes := [1] }).2 = -EAGAIN ∧
    (continue_consolidation { WC7 with trylockRes := [1] }).1.dataWrites.length
      = ({ WC7 with trylockRes := [1] } : World).dataWrites.length + 1 := by
  refine ⟨by decide, by decide, by decide, by decide⟩

end UbiEba
